import Mathlib

/-!
Verification of the iambic CW keyer (iambic.c) against its design
specification.

The keyer thread's inner loop evaluates one `switch` arm per 1 ms tick.
We embed one such evaluation as a pure step function `keyer_step` on an
explicit record of the mutable globals it touches (`key_state`, `kdelay`,
`dot_memory`, `dash_memory`, `keyer_out`), parameterised by the
configuration globals (`cw_keyer_mode`, `cw_keyer_spacing`, `dot_delay`,
`dash_delay`) and the paddle levels read through the `kdot`/`kdash`
pointers.  C `int` flags that only ever hold 0/1 become `Bool`; counters
and configuration values keep the full `Int` range of the C `int`s.
-/

namespace Iambic

/-- The `enum` of keyer states from iambic.c (CHECK = 0, ..., EXITLOOP). -/
inductive KeyState where
  | CHECK
  | PREDOT
  | PREDASH
  | SENDDOT
  | SENDDASH
  | DOTDELAY
  | DASHDELAY
  | DOTHELD
  | DASHHELD
  | LETTERSPACE
  | EXITLOOP
deriving DecidableEq, Repr

/-- The mutable globals of the keyer state machine: `key_state`, the tick
counter `kdelay`, the two element-memory flags, and the output level last
written by `set_keyer_out`. -/
structure Keyer where
  key_state : KeyState
  kdelay : Int
  dot_memory : Bool
  dash_memory : Bool
  keyer_out : Bool
deriving DecidableEq, Repr

/-- The configuration globals read by the keyer thread:
`cw_keyer_mode` (0 = straight/bug, 1 = iambic A, 2 = iambic B),
`cw_keyer_spacing` (letter spacing, nonzero = enabled), and the two
derived delays computed by `keyer_update`. -/
structure Config where
  cw_keyer_mode : Int
  cw_keyer_spacing : Int
  dot_delay : Int
  dash_delay : Int
deriving DecidableEq, Repr

/-- The paddle levels read through the `kdot` and `kdash` pointers
(already paddle-swap resolved; `true` = contact closed). -/
structure Paddles where
  kdot : Bool
  kdash : Bool
deriving DecidableEq, Repr

/-- One evaluation of the `switch (key_state)` body in `keyer_thread`
(iambic.c lines 186-336), i.e. one 1 ms tick of the keyer loop.
`set_keyer_out(x)` becomes an update of the `keyer_out` field; the C
expression `!*kdot & !*kdash` is bitwise AND of logical negations of
0/1 values, which coincides with boolean AND. -/
def keyer_step (c : Config) (p : Paddles) (s : Keyer) : Keyer :=
  match s.key_state with
  | .CHECK =>
      if c.cw_keyer_mode = 0 then
        -- Straight/External key or bug
        if p.kdash then { s with keyer_out := true, key_state := .EXITLOOP }
        else if p.kdot then { s with key_state := .PREDOT }
        else { s with keyer_out := false, key_state := .EXITLOOP }
      else
        if p.kdot then { s with key_state := .PREDOT }
        else if p.kdash then { s with key_state := .PREDASH }
        else { s with keyer_out := false, key_state := .EXITLOOP }
  | .PREDOT =>
      -- clear_memory(); key_state = SENDDOT
      { s with dot_memory := false, dash_memory := false, key_state := .SENDDOT }
  | .PREDASH =>
      { s with dot_memory := false, dash_memory := false, key_state := .SENDDASH }
  | .SENDDOT =>
      let s1 := { s with keyer_out := true }
      let s2 :=
        if s1.kdelay = c.dot_delay then
          { s1 with kdelay := 0, keyer_out := false, key_state := .DOTDELAY }
        else { s1 with kdelay := s1.kdelay + 1 }
      if c.cw_keyer_mode = 1 then
        if !p.kdot && !p.kdash then { s2 with dash_memory := false }
        else if p.kdash then { s2 with dash_memory := true }
        else s2
      else s2
  | .SENDDASH =>
      let s1 := { s with keyer_out := true }
      let s2 :=
        if s1.kdelay = c.dash_delay then
          { s1 with kdelay := 0, keyer_out := false, key_state := .DASHDELAY }
        else { s1 with kdelay := s1.kdelay + 1 }
      if c.cw_keyer_mode = 1 then
        if !p.kdot && !p.kdash then { s2 with dot_memory := false }
        else if p.kdot then { s2 with dot_memory := true }
        else s2
      else s2
  | .DOTDELAY =>
      let s1 :=
        if s.kdelay = c.dot_delay then
          { s with
            kdelay := 0
            key_state :=
              if !p.kdot && c.cw_keyer_mode = 0 then .EXITLOOP
              else if s.dash_memory then .PREDASH
              else .DOTHELD }
        else { s with kdelay := s.kdelay + 1 }
      if p.kdash then { s1 with dash_memory := true } else s1
  | .DASHDELAY =>
      let s1 :=
        if s.kdelay = c.dot_delay then
          { s with
            kdelay := 0
            key_state := if s.dot_memory then .PREDOT else .DASHHELD }
        else { s with kdelay := s.kdelay + 1 }
      if p.kdot then { s1 with dot_memory := true } else s1
  | .DOTHELD =>
      if p.kdot then { s with key_state := .PREDOT }
      else if p.kdash then { s with key_state := .PREDASH }
      else if c.cw_keyer_spacing ≠ 0 then
        { s with dot_memory := false, dash_memory := false, key_state := .LETTERSPACE }
      else { s with key_state := .EXITLOOP }
  | .DASHHELD =>
      if p.kdash then { s with key_state := .PREDASH }
      else if p.kdot then { s with key_state := .PREDOT }
      else if c.cw_keyer_spacing ≠ 0 then
        { s with dot_memory := false, dash_memory := false, key_state := .LETTERSPACE }
      else { s with key_state := .EXITLOOP }
  | .LETTERSPACE =>
      let s1 :=
        if s.kdelay = 2 * c.dot_delay then
          { s with
            kdelay := 0
            key_state :=
              if s.dot_memory then .PREDOT
              else if s.dash_memory then .PREDASH
              else .EXITLOOP }
        else { s with kdelay := s.kdelay + 1 }
      let s2 := if p.kdot then { s1 with dot_memory := true } else s1
      if p.kdash then { s2 with dash_memory := true } else s2
  | .EXITLOOP => s

/-- The keyer state right after the thread wakes from `sem_wait` and runs
`key_state = CHECK` (all globals start at 0 at program start). -/
def initKeyer : Keyer :=
  { key_state := .CHECK
    kdelay := 0
    dot_memory := false
    dash_memory := false
    keyer_out := false }

/-- The outer loop's wake after `sem_wait`: `key_state = CHECK`. -/
def wakeKeyer (s : Keyer) : Keyer := { s with key_state := .CHECK }

/-- `keyer_update` (iambic.c lines 129-141): recomputes the element
delays from speed and weight, in C integer arithmetic.  (The same
function also re-aims the `kdot`/`kdash` pointers, modelled by
`resolve_paddles`.) -/
def keyer_update (cw_keyer_speed cw_keyer_weight : Int) : Int × Int :=
  let dot_delay := 1200 / cw_keyer_speed
  -- will be 3 * dot length at standard weight
  let dash_delay := (dot_delay * 3 * cw_keyer_weight) / 50
  (dot_delay, dash_delay)

/-- The raw debounced contact levels stored by `keyer_event` in the
globals `kcwl`/`kcwr`. -/
structure RawPaddles where
  kcwl : Bool
  kcwr : Bool
deriving DecidableEq, Repr

/-- The paddle-swap pointer assignment in `keyer_update`: `kdot`/`kdash`
alias `kcwl`/`kcwr`, exchanged when `cw_keys_reversed` is set. -/
def resolve_paddles (cw_keys_reversed : Bool) (r : RawPaddles) : Paddles :=
  if cw_keys_reversed then { kdot := r.kcwr, kdash := r.kcwl }
  else { kdot := r.kcwl, kdash := r.kcwr }

/-- `keyer_event` (iambic.c lines 143-153): the GPIO alert callback.
`state = (level == 0)` (active-low contacts); it stores the level into
`kcwl` or `kcwr` and returns whether it posts the wake semaphore
(`state || cw_keyer_mode == KEYER_STRAIGHT`). -/
def keyer_event (cw_keyer_mode : Int) (isLeftPaddle : Bool) (level : Int)
    (r : RawPaddles) : RawPaddles × Bool :=
  let state := decide (level = 0)
  let r1 := if isLeftPaddle then { r with kcwl := state } else { r with kcwr := state }
  (r1, state || decide (cw_keyer_mode = 0))

end Iambic

namespace Iambic

/-! Closed forms of `keyer_step` at each state, used to drive rewriting. -/

lemma keyer_step_CHECK (c : Config) (p : Paddles) (kd : Int) (m1 m2 o : Bool) :
    keyer_step c p ⟨.CHECK, kd, m1, m2, o⟩ =
      if c.cw_keyer_mode = 0 then
        if p.kdash then ⟨.EXITLOOP, kd, m1, m2, true⟩
        else if p.kdot then ⟨.PREDOT, kd, m1, m2, o⟩
        else ⟨.EXITLOOP, kd, m1, m2, false⟩
      else
        if p.kdot then ⟨.PREDOT, kd, m1, m2, o⟩
        else if p.kdash then ⟨.PREDASH, kd, m1, m2, o⟩
        else ⟨.EXITLOOP, kd, m1, m2, false⟩ := rfl

lemma keyer_step_PREDOT (c : Config) (p : Paddles) (kd : Int) (m1 m2 o : Bool) :
    keyer_step c p ⟨.PREDOT, kd, m1, m2, o⟩ = ⟨.SENDDOT, kd, false, false, o⟩ := rfl

lemma keyer_step_PREDASH (c : Config) (p : Paddles) (kd : Int) (m1 m2 o : Bool) :
    keyer_step c p ⟨.PREDASH, kd, m1, m2, o⟩ = ⟨.SENDDASH, kd, false, false, o⟩ := rfl

lemma keyer_step_SENDDOT (c : Config) (p : Paddles) (kd : Int) (m1 m2 o : Bool) :
    keyer_step c p ⟨.SENDDOT, kd, m1, m2, o⟩ =
      (let s2 : Keyer :=
        if kd = c.dot_delay then ⟨.DOTDELAY, 0, m1, m2, false⟩
        else ⟨.SENDDOT, kd + 1, m1, m2, true⟩
       if c.cw_keyer_mode = 1 then
         if !p.kdot && !p.kdash then { s2 with dash_memory := false }
         else if p.kdash then { s2 with dash_memory := true }
         else s2
       else s2) := rfl

lemma keyer_step_SENDDASH (c : Config) (p : Paddles) (kd : Int) (m1 m2 o : Bool) :
    keyer_step c p ⟨.SENDDASH, kd, m1, m2, o⟩ =
      (let s2 : Keyer :=
        if kd = c.dash_delay then ⟨.DASHDELAY, 0, m1, m2, false⟩
        else ⟨.SENDDASH, kd + 1, m1, m2, true⟩
       if c.cw_keyer_mode = 1 then
         if !p.kdot && !p.kdash then { s2 with dot_memory := false }
         else if p.kdot then { s2 with dot_memory := true }
         else s2
       else s2) := rfl

lemma keyer_step_DOTDELAY (c : Config) (p : Paddles) (kd : Int) (m1 m2 o : Bool) :
    keyer_step c p ⟨.DOTDELAY, kd, m1, m2, o⟩ =
      (let s1 : Keyer :=
        if kd = c.dot_delay then
          ⟨if !p.kdot && c.cw_keyer_mode = 0 then .EXITLOOP
           else if m2 then .PREDASH else .DOTHELD, 0, m1, m2, o⟩
        else ⟨.DOTDELAY, kd + 1, m1, m2, o⟩
       if p.kdash then { s1 with dash_memory := true } else s1) := rfl

lemma keyer_step_DASHDELAY (c : Config) (p : Paddles) (kd : Int) (m1 m2 o : Bool) :
    keyer_step c p ⟨.DASHDELAY, kd, m1, m2, o⟩ =
      (let s1 : Keyer :=
        if kd = c.dot_delay then
          ⟨if m1 then .PREDOT else .DASHHELD, 0, m1, m2, o⟩
        else ⟨.DASHDELAY, kd + 1, m1, m2, o⟩
       if p.kdot then { s1 with dot_memory := true } else s1) := rfl

lemma keyer_step_DOTHELD (c : Config) (p : Paddles) (kd : Int) (m1 m2 o : Bool) :
    keyer_step c p ⟨.DOTHELD, kd, m1, m2, o⟩ =
      (if p.kdot then ⟨.PREDOT, kd, m1, m2, o⟩
       else if p.kdash then ⟨.PREDASH, kd, m1, m2, o⟩
       else if c.cw_keyer_spacing ≠ 0 then ⟨.LETTERSPACE, kd, false, false, o⟩
       else ⟨.EXITLOOP, kd, m1, m2, o⟩) := rfl

lemma keyer_step_DASHHELD (c : Config) (p : Paddles) (kd : Int) (m1 m2 o : Bool) :
    keyer_step c p ⟨.DASHHELD, kd, m1, m2, o⟩ =
      (if p.kdash then ⟨.PREDASH, kd, m1, m2, o⟩
       else if p.kdot then ⟨.PREDOT, kd, m1, m2, o⟩
       else if c.cw_keyer_spacing ≠ 0 then ⟨.LETTERSPACE, kd, false, false, o⟩
       else ⟨.EXITLOOP, kd, m1, m2, o⟩) := rfl

lemma keyer_step_LETTERSPACE (c : Config) (p : Paddles) (kd : Int) (m1 m2 o : Bool) :
    keyer_step c p ⟨.LETTERSPACE, kd, m1, m2, o⟩ =
      (let s1 : Keyer :=
        if kd = 2 * c.dot_delay then
          ⟨if m1 then .PREDOT else if m2 then .PREDASH else .EXITLOOP, 0, m1, m2, o⟩
        else ⟨.LETTERSPACE, kd + 1, m1, m2, o⟩
       let s2 := if p.kdot then { s1 with dot_memory := true } else s1
       if p.kdash then { s2 with dash_memory := true } else s2) := rfl

lemma keyer_step_EXITLOOP (c : Config) (p : Paddles) (kd : Int) (m1 m2 o : Bool) :
    keyer_step c p ⟨.EXITLOOP, kd, m1, m2, o⟩ = ⟨.EXITLOOP, kd, m1, m2, o⟩ := rfl

/-- C4: the timing derivation of `keyer_update`, in exact integer
arithmetic: `dot_delay = 1200 / speed`, `dash_delay = dot_delay * 3 *
weight / 50`; at speed 20 and weight 50 this is (60, 180), and at speed
20 and weight 66 the dash delay is 237 with the dot delay still 60. -/
theorem keyer_update_timing :
    (∀ s w : Int, keyer_update s w = (1200 / s, (1200 / s) * 3 * w / 50)) ∧
    keyer_update 20 50 = (60, 180) ∧
    keyer_update 20 66 = (60, 237) := by
  refine ⟨fun s w => rfl, by decide, by decide⟩

end Iambic

namespace Iambic

/-! ### Opposite-paddle capture during elements (claims about memory) -/

/-- C2 (counterexample): in Iambic Mode B, a SENDDOT tick with the dash
paddle held does NOT set `dash_memory` — the `dash_memory = 1` assignment
in the SENDDOT arm is nested inside the `if (cw_keyer_mode == KEYER_MODE_A)`
guard, so the claimed mode-independent capture fails at this input. -/
theorem modeB_senddot_no_capture :
    (keyer_step ⟨2, 0, 60, 180⟩ ⟨false, true⟩
        ⟨.SENDDOT, 0, false, false, false⟩).dash_memory = false := by
  decide

/-- C2 (amended): opposite-paddle capture during an element is Mode A
only.  In Mode A a SENDDOT tick with the dash paddle held sets
`dash_memory` and a SENDDASH tick with the dot paddle held sets
`dot_memory`; in every other mode SENDDOT/SENDDASH ticks leave both
memory flags unchanged.  In every mode, a DOTDELAY tick with the dash
paddle held sets `dash_memory` and a DASHDELAY tick with the dot paddle
held sets `dot_memory`. -/
theorem memory_capture_by_mode (c : Config) (p : Paddles) (s : Keyer) :
    (c.cw_keyer_mode = 1 → s.key_state = .SENDDOT → p.kdash = true →
      (keyer_step c p s).dash_memory = true) ∧
    (c.cw_keyer_mode = 1 → s.key_state = .SENDDASH → p.kdot = true →
      (keyer_step c p s).dot_memory = true) ∧
    (c.cw_keyer_mode ≠ 1 → s.key_state = .SENDDOT ∨ s.key_state = .SENDDASH →
      (keyer_step c p s).dot_memory = s.dot_memory ∧
      (keyer_step c p s).dash_memory = s.dash_memory) ∧
    (s.key_state = .DOTDELAY → p.kdash = true →
      (keyer_step c p s).dash_memory = true) ∧
    (s.key_state = .DASHDELAY → p.kdot = true →
      (keyer_step c p s).dot_memory = true) := by
  obtain ⟨ks, kd, m1, m2, o⟩ := s
  obtain ⟨pd, ph⟩ := p
  refine ⟨?_, ?_, ?_, ?_, ?_⟩
  · rintro hm rfl rfl
    rw [keyer_step_SENDDOT]
    simp [hm]
  · rintro hm rfl rfl
    rw [keyer_step_SENDDASH]
    simp [hm]
  · rintro hm (rfl | rfl)
    · rw [keyer_step_SENDDOT]
      simp [hm]
      split_ifs <;> simp
    · rw [keyer_step_SENDDASH]
      simp [hm]
      split_ifs <;> simp
  · rintro rfl rfl
    rw [keyer_step_DOTDELAY]
    simp
  · rintro rfl rfl
    rw [keyer_step_DASHDELAY]
    simp

/-- C2 witness. -/
theorem memory_capture_by_mode_witness :
    (keyer_step ⟨1, 0, 60, 180⟩ ⟨true, true⟩
        ⟨.SENDDOT, 0, false, false, false⟩).dash_memory = true :=
  (memory_capture_by_mode ⟨1, 0, 60, 180⟩ ⟨true, true⟩
    ⟨.SENDDOT, 0, false, false, false⟩).1 rfl rfl rfl

/-- C3: Mode A clears the pending opposite memory on a mid-element
simultaneous release (a SENDDOT tick with both paddles up clears
`dash_memory`, a SENDDASH tick clears `dot_memory`), while in Mode B the
only ticks that can take a set memory flag back to false are the
`clear_memory()` on entering SENDDOT/SENDDASH from PREDOT/PREDASH and
the `clear_memory()` performed by DOTHELD/DASHHELD when they enter
LETTERSPACE. -/
theorem modeA_clears_modeB_preserves (c : Config) (p : Paddles) (s : Keyer) :
    (c.cw_keyer_mode = 1 → s.key_state = .SENDDOT → p.kdot = false →
      p.kdash = false → (keyer_step c p s).dash_memory = false) ∧
    (c.cw_keyer_mode = 1 → s.key_state = .SENDDASH → p.kdot = false →
      p.kdash = false → (keyer_step c p s).dot_memory = false) ∧
    (c.cw_keyer_mode = 2 →
      (s.dot_memory = true → (keyer_step c p s).dot_memory = false →
        s.key_state = .PREDOT ∨ s.key_state = .PREDASH ∨
        ((s.key_state = .DOTHELD ∨ s.key_state = .DASHHELD) ∧
          (keyer_step c p s).key_state = .LETTERSPACE)) ∧
      (s.dash_memory = true → (keyer_step c p s).dash_memory = false →
        s.key_state = .PREDOT ∨ s.key_state = .PREDASH ∨
        ((s.key_state = .DOTHELD ∨ s.key_state = .DASHHELD) ∧
          (keyer_step c p s).key_state = .LETTERSPACE))) := by
  obtain ⟨ks, kd, m1, m2, o⟩ := s
  obtain ⟨pd, ph⟩ := p
  refine ⟨?_, ?_, fun hm => ⟨?_, ?_⟩⟩
  · rintro hm rfl rfl rfl
    rw [keyer_step_SENDDOT]
    simp [hm]
  · rintro hm rfl rfl rfl
    rw [keyer_step_SENDDASH]
    simp [hm]
  · rintro rfl hset
    cases ks <;>
      simp only [keyer_step_CHECK, keyer_step_PREDOT, keyer_step_PREDASH,
        keyer_step_SENDDOT, keyer_step_SENDDASH, keyer_step_DOTDELAY,
        keyer_step_DASHDELAY, keyer_step_DOTHELD, keyer_step_DASHHELD,
        keyer_step_LETTERSPACE, keyer_step_EXITLOOP, hm] at hset ⊢ <;>
      (try split_ifs at hset ⊢) <;> simp_all
  · rintro rfl hset
    cases ks <;>
      simp only [keyer_step_CHECK, keyer_step_PREDOT, keyer_step_PREDASH,
        keyer_step_SENDDOT, keyer_step_SENDDASH, keyer_step_DOTDELAY,
        keyer_step_DASHDELAY, keyer_step_DOTHELD, keyer_step_DASHHELD,
        keyer_step_LETTERSPACE, keyer_step_EXITLOOP, hm] at hset ⊢ <;>
      (try split_ifs at hset ⊢) <;> simp_all

/-- C3 witness. -/
theorem modeA_clears_modeB_preserves_witness :
    (keyer_step ⟨1, 0, 60, 180⟩ ⟨false, false⟩
        ⟨.SENDDOT, 5, false, true, true⟩).dash_memory = false :=
  (modeA_clears_modeB_preserves ⟨1, 0, 60, 180⟩ ⟨false, false⟩
    ⟨.SENDDOT, 5, false, true, true⟩).1 rfl rfl rfl rfl

/-- C10: every mode value other than 0 (straight) and 1 (Mode A) drives
the keyer exactly like Mode B (mode 2): the step function only ever
compares the mode against 0 and 1, and `keyer_event` only against 0, so
both agree tick for tick (and event for event) with mode 2. -/
theorem nonstandard_mode_equals_modeB (m sp ddot ddash : Int)
    (hm0 : m ≠ 0) (hm1 : m ≠ 1) :
    (∀ (p : Paddles) (s : Keyer),
      keyer_step ⟨m, sp, ddot, ddash⟩ p s = keyer_step ⟨2, sp, ddot, ddash⟩ p s) ∧
    (∀ (l : Bool) (lv : Int) (r : RawPaddles),
      keyer_event m l lv r = keyer_event 2 l lv r) := by
  have h20 : (2 : Int) ≠ 0 := by decide
  have h21 : (2 : Int) ≠ 1 := by decide
  constructor
  · intro p s
    obtain ⟨ks, kd, m1, m2, o⟩ := s
    cases ks <;> simp [keyer_step, hm0, hm1, h20, h21]
  · intro l lv r
    simp [keyer_event, hm0, h20]

/-- C10 witness (mode 3 and mode -1 both behave as Mode B on a sample
tick and a sample paddle event). -/
theorem nonstandard_mode_equals_modeB_witness :
    (keyer_step ⟨3, 0, 60, 180⟩ ⟨true, false⟩ initKeyer =
      keyer_step ⟨2, 0, 60, 180⟩ ⟨true, false⟩ initKeyer) ∧
    (keyer_event (-1) true 0 ⟨false, false⟩ =
      keyer_event 2 true 0 ⟨false, false⟩) :=
  ⟨(nonstandard_mode_equals_modeB 3 0 60 180 (by decide) (by decide)).1
      ⟨true, false⟩ initKeyer,
    (nonstandard_mode_equals_modeB (-1) 0 60 180 (by decide) (by decide)).2
      true 0 ⟨false, false⟩⟩

end Iambic

namespace Iambic

/-! ### The `kdelay` reset discipline (claim C7) -/

/-- The states in which `kdelay` is actively counting; in all other
states the counter is dormant at 0. -/
def timedState : KeyState → Bool
  | .SENDDOT | .SENDDASH | .DOTDELAY | .DASHDELAY | .LETTERSPACE => true
  | _ => false

/-- Invariant: outside the counting states `kdelay` is 0. -/
def KdelayInv (s : Keyer) : Prop := timedState s.key_state = false → s.kdelay = 0

/-- Configurations of the keyer thread reachable from program start:
all globals start at zero, ticks run `keyer_step` with arbitrary paddle
levels, and the outer loop re-enters CHECK (after `sem_wait`) only once
the inner loop has reached EXITLOOP. -/
inductive Reachable (c : Config) : Keyer → Prop where
  | init : Reachable c initKeyer
  | step (p : Paddles) {s : Keyer} (h : Reachable c s) : Reachable c (keyer_step c p s)
  | wake {s : Keyer} (h : Reachable c s) (hx : s.key_state = .EXITLOOP) :
      Reachable c (wakeKeyer s)

lemma kdelayInv_step (c : Config) (p : Paddles) {s : Keyer} (h : KdelayInv s) :
    KdelayInv (keyer_step c p s) := by
  obtain ⟨ks, kd, m1, m2, o⟩ := s
  obtain ⟨pd, ph⟩ := p
  cases ks <;>
    simp only [KdelayInv, timedState, keyer_step] at h ⊢ <;>
    (try split_ifs) <;> simp_all [timedState]

lemma kdelay_zero_on_transition (c : Config) (p : Paddles) {s : Keyer}
    (h : KdelayInv s) (hch : (keyer_step c p s).key_state ≠ s.key_state) :
    (keyer_step c p s).kdelay = 0 := by
  obtain ⟨ks, kd, m1, m2, o⟩ := s
  obtain ⟨pd, ph⟩ := p
  cases ks <;>
    simp only [KdelayInv, timedState, keyer_step] at h hch ⊢ <;>
    (try split_ifs at hch ⊢) <;> simp_all [timedState]

lemma reachable_kdelayInv (c : Config) {s : Keyer} (h : Reachable c s) :
    KdelayInv s := by
  induction h with
  | init => intro _; rfl
  | step p h ih => exact kdelayInv_step c p ih
  | wake h hx ih =>
      intro _
      exact ih (by rw [hx]; rfl)

/-- C7: in every reachable configuration, whenever a tick of the step
function changes `key_state` (in particular on entry into SENDDOT,
SENDDASH, DOTDELAY, DASHDELAY and LETTERSPACE), the new configuration
has `kdelay = 0`: the counter is reset on every state transition. -/
theorem kdelay_zero_at_transitions (c : Config) {s : Keyer}
    (hs : Reachable c s) (p : Paddles)
    (hch : (keyer_step c p s).key_state ≠ s.key_state) :
    (keyer_step c p s).kdelay = 0 :=
  kdelay_zero_on_transition c p (reachable_kdelayInv c hs) hch

/-- C7 witness. -/
theorem kdelay_zero_at_transitions_witness :
    (keyer_step ⟨1, 0, 60, 180⟩ ⟨true, false⟩ initKeyer).kdelay = 0 :=
  kdelay_zero_at_transitions ⟨1, 0, 60, 180⟩ Reachable.init ⟨true, false⟩
    (by decide)

end Iambic

namespace Iambic

/-! ### Generic helpers for running the step function along an explicit
phase schedule -/

lemma iterate_eq_of_phase {α : Type} (f : α → α) (g : Nat → α) :
    ∀ n a : Nat, (∀ j, a ≤ j → j < a + n → f (g j) = g (j + 1)) →
      f^[n] (g a) = g (a + n) := by
  intro n
  induction n with
  | zero => intro a _; simp
  | succ k ih =>
      intro a h
      rw [Function.iterate_succ_apply, h a le_rfl (by omega),
        ih (a + 1) (fun j h1 h2 => h j (by omega) (by omega))]
      congr 1
      omega

lemma iterate_periodic_phase {α : Type} (f : α → α) (g : Nat → α) (P : Nat)
    (hP : 0 < P) (hstep : ∀ j, j < P → f (g j) = g (j + 1))
    (hwrap : g P = g 0) :
    ∀ n, f^[n] (g 0) = g (n % P) := by
  intro n
  induction n using Nat.strong_induction_on with
  | _ n ih =>
    by_cases hn : n < P
    · rw [Nat.mod_eq_of_lt hn]
      have h := iterate_eq_of_phase f g n 0 (fun j h1 h2 => hstep j (by omega))
      simpa using h
    · push_neg at hn
      obtain ⟨k, rfl⟩ : ∃ k, n = k + P := ⟨n - P, by omega⟩
      rw [Function.iterate_add_apply]
      have hPiter : f^[P] (g 0) = g 0 := by
        have h := iterate_eq_of_phase f g P 0 (fun j h1 h2 => hstep j (by omega))
        simpa [hwrap] using h
      rw [hPiter, ih k (by omega), Nat.add_mod_right]

/-! ### Claim C1: squeeze keying -/

/-- Both paddles squeezed. -/
def bothHeld : Paddles := ⟨true, true⟩

/-- Running the keyer loop with both paddles held on every tick. -/
def squeezeRun (c : Config) (n : Nat) (s : Keyer) : Keyer :=
  (keyer_step c bothHeld)^[n] s

/-- Length in ticks of one full squeeze cycle
SENDDOT, DOTDELAY, PREDASH, SENDDASH, DASHDELAY, PREDOT. -/
def squeezePeriod (d D : Nat) : Nat := 3 * d + D + 6

/-- The keyer configuration reached `j` ticks after entering SENDDOT with
cleared memories during a continuous squeeze (dot delay `d`, dash delay
`D`, keyer mode `m`): `d + 1` SENDDOT ticks (output up for ticks
`1..d`), `d + 1` DOTDELAY ticks (dash memory set; already during SENDDOT
when `m = 1`), one PREDASH tick, `D + 1` SENDDASH ticks, `d + 1`
DASHDELAY ticks (dot memory set), one PREDOT tick, and back. -/
def squeezePhase (m : Int) (d D : Nat) (j : Nat) : Keyer :=
  if j = 0 then ⟨.SENDDOT, 0, false, false, false⟩
  else if j ≤ d then ⟨.SENDDOT, (j : Int), false, decide (m = 1), true⟩
  else if j = d + 1 then ⟨.DOTDELAY, 0, false, decide (m = 1), false⟩
  else if j ≤ 2 * d + 1 then
    ⟨.DOTDELAY, ((j - (d + 1) : Nat) : Int), false, true, false⟩
  else if j = 2 * d + 2 then ⟨.PREDASH, 0, false, true, false⟩
  else if j = 2 * d + 3 then ⟨.SENDDASH, 0, false, false, false⟩
  else if j ≤ 2 * d + 3 + D then
    ⟨.SENDDASH, ((j - (2 * d + 3) : Nat) : Int), decide (m = 1), false, true⟩
  else if j = 2 * d + 4 + D then ⟨.DASHDELAY, 0, decide (m = 1), false, false⟩
  else if j ≤ 3 * d + 4 + D then
    ⟨.DASHDELAY, ((j - (2 * d + 4 + D) : Nat) : Int), true, false, false⟩
  else if j = 3 * d + 5 + D then ⟨.PREDOT, 0, true, false, false⟩
  else ⟨.SENDDOT, 0, false, false, false⟩

lemma sp_zero (m : Int) (d D : Nat) :
    squeezePhase m d D 0 = ⟨.SENDDOT, 0, false, false, false⟩ := by
  unfold squeezePhase
  repeat' split
  all_goals first | rfl | (exfalso; omega)

lemma sp_senddot (m : Int) (d D j : Nat) (h1 : 1 ≤ j) (h2 : j ≤ d) :
    squeezePhase m d D j = ⟨.SENDDOT, (j : Int), false, decide (m = 1), true⟩ := by
  unfold squeezePhase
  repeat' split
  all_goals first | rfl | (exfalso; omega)

lemma sp_dotdelay0 (m : Int) (d D : Nat) :
    squeezePhase m d D (d + 1) = ⟨.DOTDELAY, 0, false, decide (m = 1), false⟩ := by
  unfold squeezePhase
  repeat' split
  all_goals first | rfl | (exfalso; omega)

lemma sp_dotdelay (m : Int) (d D j : Nat) (h1 : d + 2 ≤ j) (h2 : j ≤ 2 * d + 1) :
    squeezePhase m d D j =
      ⟨.DOTDELAY, ((j - (d + 1) : Nat) : Int), false, true, false⟩ := by
  unfold squeezePhase
  repeat' split
  all_goals first | rfl | (exfalso; omega)

lemma sp_predash (m : Int) (d D : Nat) :
    squeezePhase m d D (2 * d + 2) = ⟨.PREDASH, 0, false, true, false⟩ := by
  unfold squeezePhase
  repeat' split
  all_goals first | rfl | (exfalso; omega)

lemma sp_senddash0 (m : Int) (d D : Nat) :
    squeezePhase m d D (2 * d + 3) = ⟨.SENDDASH, 0, false, false, false⟩ := by
  unfold squeezePhase
  repeat' split
  all_goals first | rfl | (exfalso; omega)

lemma sp_senddash (m : Int) (d D j : Nat) (h1 : 2 * d + 4 ≤ j)
    (h2 : j ≤ 2 * d + 3 + D) :
    squeezePhase m d D j =
      ⟨.SENDDASH, ((j - (2 * d + 3) : Nat) : Int), decide (m = 1), false, true⟩ := by
  unfold squeezePhase
  repeat' split
  all_goals first | rfl | (exfalso; omega)

lemma sp_dashdelay0 (m : Int) (d D : Nat) :
    squeezePhase m d D (2 * d + 4 + D) =
      ⟨.DASHDELAY, 0, decide (m = 1), false, false⟩ := by
  unfold squeezePhase
  repeat' split
  all_goals first | rfl | (exfalso; omega)

lemma sp_dashdelay (m : Int) (d D j : Nat) (h1 : 2 * d + 5 + D ≤ j)
    (h2 : j ≤ 3 * d + 4 + D) :
    squeezePhase m d D j =
      ⟨.DASHDELAY, ((j - (2 * d + 4 + D) : Nat) : Int), true, false, false⟩ := by
  unfold squeezePhase
  repeat' split
  all_goals first | rfl | (exfalso; omega)

lemma sp_predot (m : Int) (d D : Nat) :
    squeezePhase m d D (3 * d + 5 + D) = ⟨.PREDOT, 0, true, false, false⟩ := by
  unfold squeezePhase
  repeat' split
  all_goals first | rfl | (exfalso; omega)

lemma sp_wrap (m : Int) (d D j : Nat) (h1 : 3 * d + 6 + D ≤ j) :
    squeezePhase m d D j = ⟨.SENDDOT, 0, false, false, false⟩ := by
  unfold squeezePhase
  repeat' split
  all_goals first | rfl | (exfalso; omega)

lemma sp_ne_exitloop (m : Int) (d D j : Nat) :
    (squeezePhase m d D j).key_state ≠ .EXITLOOP := by
  unfold squeezePhase
  repeat' split
  all_goals exact nofun

end Iambic


namespace Iambic

lemma squeezePhase_step (c : Config) (d D : Nat)
    (hdot : c.dot_delay = (d : Int)) (hdash : c.dash_delay = (D : Int))
    (hd : 1 ≤ d) (hD : 1 ≤ D)
    (j : Nat) (hj : j < squeezePeriod d D) :
    keyer_step c bothHeld (squeezePhase c.cw_keyer_mode d D j) =
      squeezePhase c.cw_keyer_mode d D (j + 1) := by
  unfold squeezePeriod at hj
  by_cases h0 : j = 0
  · have hl : squeezePhase c.cw_keyer_mode d D j = ⟨.SENDDOT, 0, false, false, false⟩ := by
      rw [h0]; exact sp_zero c.cw_keyer_mode d D
    have hr : squeezePhase c.cw_keyer_mode d D (j + 1) =
        ⟨.SENDDOT, ((1 : Nat) : Int), false, decide (c.cw_keyer_mode = 1), true⟩ := by
      rw [show j + 1 = 1 from by omega]; exact sp_senddot c.cw_keyer_mode d D 1 le_rfl hd
    rw [hl, hr, keyer_step_SENDDOT, hdot]
    rw [if_neg (show ¬((0 : Int) = ((d : Nat) : Int)) from by omega)]
    by_cases hm1 : c.cw_keyer_mode = 1 <;> simp [bothHeld, hm1, Keyer.mk.injEq]
  by_cases hA : j < d
  · have hl : squeezePhase c.cw_keyer_mode d D j =
        ⟨.SENDDOT, (j : Int), false, decide (c.cw_keyer_mode = 1), true⟩ :=
      sp_senddot c.cw_keyer_mode d D j (by omega) (by omega)
    have hr : squeezePhase c.cw_keyer_mode d D (j + 1) =
        ⟨.SENDDOT, ((j + 1 : Nat) : Int), false, decide (c.cw_keyer_mode = 1), true⟩ :=
      sp_senddot c.cw_keyer_mode d D (j + 1) (by omega) (by omega)
    rw [hl, hr, keyer_step_SENDDOT, hdot]
    rw [if_neg (show ¬(((j : Nat) : Int) = ((d : Nat) : Int)) from by omega)]
    by_cases hm1 : c.cw_keyer_mode = 1 <;> simp [bothHeld, hm1, Keyer.mk.injEq]
  by_cases hB : j = d
  · have hl : squeezePhase c.cw_keyer_mode d D j =
        ⟨.SENDDOT, ((d : Nat) : Int), false, decide (c.cw_keyer_mode = 1), true⟩ := by
      rw [hB]; exact sp_senddot c.cw_keyer_mode d D d hd le_rfl
    have hr : squeezePhase c.cw_keyer_mode d D (j + 1) =
        ⟨.DOTDELAY, 0, false, decide (c.cw_keyer_mode = 1), false⟩ := by
      rw [show j + 1 = d + 1 from by omega]; exact sp_dotdelay0 c.cw_keyer_mode d D
    rw [hl, hr, keyer_step_SENDDOT, hdot]
    rw [if_pos (rfl : ((d : Nat) : Int) = ((d : Nat) : Int))]
    by_cases hm1 : c.cw_keyer_mode = 1 <;> simp [bothHeld, hm1, Keyer.mk.injEq]
  by_cases hC : j = d + 1
  · have hl : squeezePhase c.cw_keyer_mode d D j =
        ⟨.DOTDELAY, 0, false, decide (c.cw_keyer_mode = 1), false⟩ := by
      rw [hC]; exact sp_dotdelay0 c.cw_keyer_mode d D
    have hr : squeezePhase c.cw_keyer_mode d D (j + 1) =
        ⟨.DOTDELAY, ((j + 1 - (d + 1) : Nat) : Int), false, true, false⟩ :=
      sp_dotdelay c.cw_keyer_mode d D (j + 1) (by omega) (by omega)
    rw [hl, hr, keyer_step_DOTDELAY, hdot]
    rw [if_neg (show ¬((0 : Int) = ((d : Nat) : Int)) from by omega)]
    simp [bothHeld, Keyer.mk.injEq]
    omega
  by_cases hDl : j ≤ 2 * d
  · have hl : squeezePhase c.cw_keyer_mode d D j =
        ⟨.DOTDELAY, ((j - (d + 1) : Nat) : Int), false, true, false⟩ :=
      sp_dotdelay c.cw_keyer_mode d D j (by omega) (by omega)
    have hr : squeezePhase c.cw_keyer_mode d D (j + 1) =
        ⟨.DOTDELAY, ((j + 1 - (d + 1) : Nat) : Int), false, true, false⟩ :=
      sp_dotdelay c.cw_keyer_mode d D (j + 1) (by omega) (by omega)
    rw [hl, hr, keyer_step_DOTDELAY, hdot]
    rw [if_neg (show ¬(((j - (d + 1) : Nat) : Int) = ((d : Nat) : Int)) from by omega)]
    simp [bothHeld, Keyer.mk.injEq]
    omega
  by_cases hE : j = 2 * d + 1
  · have hl : squeezePhase c.cw_keyer_mode d D j =
        ⟨.DOTDELAY, ((j - (d + 1) : Nat) : Int), false, true, false⟩ :=
      sp_dotdelay c.cw_keyer_mode d D j (by omega) (by omega)
    have hr : squeezePhase c.cw_keyer_mode d D (j + 1) = ⟨.PREDASH, 0, false, true, false⟩ := by
      rw [show j + 1 = 2 * d + 2 from by omega]; exact sp_predash c.cw_keyer_mode d D
    rw [hl, hr, keyer_step_DOTDELAY, hdot]
    rw [if_pos (show ((j - (d + 1) : Nat) : Int) = ((d : Nat) : Int) from by omega)]
    simp [bothHeld, Keyer.mk.injEq]
  by_cases hF : j = 2 * d + 2
  · have hl : squeezePhase c.cw_keyer_mode d D j = ⟨.PREDASH, 0, false, true, false⟩ := by
      rw [hF]; exact sp_predash c.cw_keyer_mode d D
    have hr : squeezePhase c.cw_keyer_mode d D (j + 1) = ⟨.SENDDASH, 0, false, false, false⟩ := by
      rw [show j + 1 = 2 * d + 3 from by omega]; exact sp_senddash0 c.cw_keyer_mode d D
    rw [hl, hr, keyer_step_PREDASH]
  by_cases hG : j = 2 * d + 3
  · have hl : squeezePhase c.cw_keyer_mode d D j = ⟨.SENDDASH, 0, false, false, false⟩ := by
      rw [hG]; exact sp_senddash0 c.cw_keyer_mode d D
    have hr : squeezePhase c.cw_keyer_mode d D (j + 1) =
        ⟨.SENDDASH, ((j + 1 - (2 * d + 3) : Nat) : Int), decide (c.cw_keyer_mode = 1), false, true⟩ :=
      sp_senddash c.cw_keyer_mode d D (j + 1) (by omega) (by omega)
    rw [hl, hr, keyer_step_SENDDASH, hdash]
    rw [if_neg (show ¬((0 : Int) = ((D : Nat) : Int)) from by omega)]
    by_cases hm1 : c.cw_keyer_mode = 1 <;> simp [bothHeld, hm1, Keyer.mk.injEq] <;> try omega
  by_cases hH : j ≤ 2 * d + 2 + D
  · have hl : squeezePhase c.cw_keyer_mode d D j =
        ⟨.SENDDASH, ((j - (2 * d + 3) : Nat) : Int), decide (c.cw_keyer_mode = 1), false, true⟩ :=
      sp_senddash c.cw_keyer_mode d D j (by omega) (by omega)
    have hr : squeezePhase c.cw_keyer_mode d D (j + 1) =
        ⟨.SENDDASH, ((j + 1 - (2 * d + 3) : Nat) : Int), decide (c.cw_keyer_mode = 1), false, true⟩ :=
      sp_senddash c.cw_keyer_mode d D (j + 1) (by omega) (by omega)
    rw [hl, hr, keyer_step_SENDDASH, hdash]
    rw [if_neg (show ¬(((j - (2 * d + 3) : Nat) : Int) = ((D : Nat) : Int)) from by omega)]
    by_cases hm1 : c.cw_keyer_mode = 1 <;> simp [bothHeld, hm1, Keyer.mk.injEq] <;> try omega
  by_cases hI : j = 2 * d + 3 + D
  · have hl : squeezePhase c.cw_keyer_mode d D j =
        ⟨.SENDDASH, ((j - (2 * d + 3) : Nat) : Int), decide (c.cw_keyer_mode = 1), false, true⟩ :=
      sp_senddash c.cw_keyer_mode d D j (by omega) (by omega)
    have hr : squeezePhase c.cw_keyer_mode d D (j + 1) =
        ⟨.DASHDELAY, 0, decide (c.cw_keyer_mode = 1), false, false⟩ := by
      rw [show j + 1 = 2 * d + 4 + D from by omega]; exact sp_dashdelay0 c.cw_keyer_mode d D
    rw [hl, hr, keyer_step_SENDDASH, hdash]
    rw [if_pos (show ((j - (2 * d + 3) : Nat) : Int) = ((D : Nat) : Int) from by omega)]
    by_cases hm1 : c.cw_keyer_mode = 1 <;> simp [bothHeld, hm1, Keyer.mk.injEq]
  by_cases hJ : j = 2 * d + 4 + D
  · have hl : squeezePhase c.cw_keyer_mode d D j =
        ⟨.DASHDELAY, 0, decide (c.cw_keyer_mode = 1), false, false⟩ := by
      rw [hJ]; exact sp_dashdelay0 c.cw_keyer_mode d D
    have hr : squeezePhase c.cw_keyer_mode d D (j + 1) =
        ⟨.DASHDELAY, ((j + 1 - (2 * d + 4 + D) : Nat) : Int), true, false, false⟩ :=
      sp_dashdelay c.cw_keyer_mode d D (j + 1) (by omega) (by omega)
    rw [hl, hr, keyer_step_DASHDELAY, hdot]
    rw [if_neg (show ¬((0 : Int) = ((d : Nat) : Int)) from by omega)]
    simp [bothHeld, Keyer.mk.injEq]
    omega
  by_cases hK : j ≤ 3 * d + 3 + D
  · have hl : squeezePhase c.cw_keyer_mode d D j =
        ⟨.DASHDELAY, ((j - (2 * d + 4 + D) : Nat) : Int), true, false, false⟩ :=
      sp_dashdelay c.cw_keyer_mode d D j (by omega) (by omega)
    have hr : squeezePhase c.cw_keyer_mode d D (j + 1) =
        ⟨.DASHDELAY, ((j + 1 - (2 * d + 4 + D) : Nat) : Int), true, false, false⟩ :=
      sp_dashdelay c.cw_keyer_mode d D (j + 1) (by omega) (by omega)
    rw [hl, hr, keyer_step_DASHDELAY, hdot]
    rw [if_neg (show ¬(((j - (2 * d + 4 + D) : Nat) : Int) = ((d : Nat) : Int)) from by omega)]
    simp [bothHeld, Keyer.mk.injEq]
    omega
  by_cases hL : j = 3 * d + 4 + D
  · have hl : squeezePhase c.cw_keyer_mode d D j =
        ⟨.DASHDELAY, ((j - (2 * d + 4 + D) : Nat) : Int), true, false, false⟩ :=
      sp_dashdelay c.cw_keyer_mode d D j (by omega) (by omega)
    have hr : squeezePhase c.cw_keyer_mode d D (j + 1) = ⟨.PREDOT, 0, true, false, false⟩ := by
      rw [show j + 1 = 3 * d + 5 + D from by omega]; exact sp_predot c.cw_keyer_mode d D
    rw [hl, hr, keyer_step_DASHDELAY, hdot]
    rw [if_pos (show ((j - (2 * d + 4 + D) : Nat) : Int) = ((d : Nat) : Int) from by omega)]
    simp [bothHeld, Keyer.mk.injEq]
  · have hl : squeezePhase c.cw_keyer_mode d D j = ⟨.PREDOT, 0, true, false, false⟩ := by
      rw [show j = 3 * d + 5 + D from by omega]; exact sp_predot c.cw_keyer_mode d D
    have hr : squeezePhase c.cw_keyer_mode d D (j + 1) = ⟨.SENDDOT, 0, false, false, false⟩ :=
      sp_wrap c.cw_keyer_mode d D (j + 1) (by omega)
    rw [hl, hr, keyer_step_PREDOT]

end Iambic

namespace Iambic

lemma sp_out_iff (m : Int) (d D j : Nat) :
    ((squeezePhase m d D j).keyer_out = true ↔
      ((squeezePhase m d D j).key_state = .SENDDOT ∨
        (squeezePhase m d D j).key_state = .SENDDASH) ∧
      (squeezePhase m d D j).kdelay ≠ 0) := by
  unfold squeezePhase
  repeat' split
  all_goals simp_all
  all_goals omega

/-- C1: squeeze-keying liveness.  With both paddles held on every tick
from the idle wake state, in Iambic Mode A or B with letter spacing
disabled (dot delay `d ≥ 1`, dash delay `D ≥ 1`), the keyer (i) never
reaches EXITLOOP, (ii) after the two initial CHECK and PREDOT ticks
follows the periodic schedule `squeezePhase` — SENDDOT (d+1 ticks),
DOTDELAY (d+1 ticks, dash memory set), PREDASH, SENDDASH (D+1 ticks),
DASHDELAY (d+1 ticks, dot memory set), PREDOT, and around again — so the
output alternates dot, gap, dash, gap forever, and (iii) the output is
asserted exactly during the in-progress SENDDOT/SENDDASH ticks. -/
theorem squeeze_liveness (c : Config) (d D : Nat)
    (hm : c.cw_keyer_mode = 1 ∨ c.cw_keyer_mode = 2)
    (hsp : c.cw_keyer_spacing = 0)
    (hdot : c.dot_delay = (d : Int)) (hdash : c.dash_delay = (D : Int))
    (hd : 1 ≤ d) (hD : 1 ≤ D) :
    (∀ n, (squeezeRun c n initKeyer).key_state ≠ .EXITLOOP) ∧
    (∀ n, squeezeRun c (n + 2) initKeyer =
      squeezePhase c.cw_keyer_mode d D (n % squeezePeriod d D)) ∧
    (∀ n, ((squeezeRun c (n + 2) initKeyer).keyer_out = true ↔
      ((squeezeRun c (n + 2) initKeyer).key_state = .SENDDOT ∨
        (squeezeRun c (n + 2) initKeyer).key_state = .SENDDASH) ∧
      (squeezeRun c (n + 2) initKeyer).kdelay ≠ 0)) := by
  have hm0 : c.cw_keyer_mode ≠ 0 := by
    rcases hm with h | h <;> rw [h] <;> decide
  have hP : 0 < squeezePeriod d D := by unfold squeezePeriod; omega
  have hstep : ∀ j, j < squeezePeriod d D →
      keyer_step c bothHeld (squeezePhase c.cw_keyer_mode d D j) =
        squeezePhase c.cw_keyer_mode d D (j + 1) :=
    fun j hj => squeezePhase_step c d D hdot hdash hd hD j hj
  have hwrap : squeezePhase c.cw_keyer_mode d D (squeezePeriod d D) =
      squeezePhase c.cw_keyer_mode d D 0 := by
    rw [sp_zero,
      sp_wrap c.cw_keyer_mode d D (squeezePeriod d D) (by unfold squeezePeriod; omega)]
  have e1 : keyer_step c bothHeld initKeyer = ⟨.PREDOT, 0, false, false, false⟩ := by
    show keyer_step c bothHeld ⟨.CHECK, 0, false, false, false⟩ = _
    rw [keyer_step_CHECK]
    simp [bothHeld, hm0]
  have h2 : (keyer_step c bothHeld)^[2] initKeyer =
      squeezePhase c.cw_keyer_mode d D 0 := by
    have hit : (keyer_step c bothHeld)^[2] initKeyer =
        keyer_step c bothHeld (keyer_step c bothHeld initKeyer) := rfl
    rw [hit, e1, keyer_step_PREDOT, sp_zero]
  have hphase : ∀ n, squeezeRun c (n + 2) initKeyer =
      squeezePhase c.cw_keyer_mode d D (n % squeezePeriod d D) := by
    intro n
    unfold squeezeRun
    rw [Function.iterate_add_apply, h2]
    exact iterate_periodic_phase _ _ _ hP hstep hwrap n
  refine ⟨?_, hphase, ?_⟩
  · intro n
    rcases Nat.lt_or_ge n 2 with hn | hn
    · interval_cases n
      · show initKeyer.key_state ≠ _
        decide
      · show (keyer_step c bothHeld initKeyer).key_state ≠ _
        rw [e1]
        decide
    · obtain ⟨k, rfl⟩ : ∃ k, n = k + 2 := ⟨n - 2, by omega⟩
      rw [hphase k]
      exact sp_ne_exitloop _ _ _ _
  · intro n
    rw [hphase n]
    exact sp_out_iff _ _ _ _

/-- C1 witness. -/
theorem squeeze_liveness_witness :
    (squeezeRun ⟨2, 0, 60, 180⟩ 100 initKeyer).key_state ≠ .EXITLOOP :=
  (squeeze_liveness ⟨2, 0, 60, 180⟩ 60 180 (Or.inr rfl) rfl rfl rfl
    (by decide) (by decide)).1 100

end Iambic

namespace Iambic

/-! ### Claim C5: straight/bug mode -/

/-- Only the dot paddle held. -/
def dotOnly : Paddles := ⟨true, false⟩

/-- Running the keyer loop with only the dot paddle held on every tick. -/
def dotRun (c : Config) (n : Nat) (s : Keyer) : Keyer :=
  (keyer_step c dotOnly)^[n] s

/-- Length in ticks of one bug-mode dot cycle
SENDDOT, DOTDELAY, DOTHELD, PREDOT. -/
def bugPeriod (d : Nat) : Nat := 2 * d + 4

/-- The keyer configuration reached `j` ticks after entering SENDDOT in
straight/bug mode with only the dot paddle held (dot delay `d`). -/
def bugPhase (d : Nat) (j : Nat) : Keyer :=
  if j = 0 then ⟨.SENDDOT, 0, false, false, false⟩
  else if j ≤ d then ⟨.SENDDOT, (j : Int), false, false, true⟩
  else if j ≤ 2 * d + 1 then
    ⟨.DOTDELAY, ((j - (d + 1) : Nat) : Int), false, false, false⟩
  else if j = 2 * d + 2 then ⟨.DOTHELD, 0, false, false, false⟩
  else if j = 2 * d + 3 then ⟨.PREDOT, 0, false, false, false⟩
  else ⟨.SENDDOT, 0, false, false, false⟩

lemma bp_zero (d : Nat) : bugPhase d 0 = ⟨.SENDDOT, 0, false, false, false⟩ := by
  unfold bugPhase
  repeat' split
  all_goals first | rfl | (exfalso; omega)

lemma bp_senddot (d j : Nat) (h1 : 1 ≤ j) (h2 : j ≤ d) :
    bugPhase d j = ⟨.SENDDOT, (j : Int), false, false, true⟩ := by
  unfold bugPhase
  repeat' split
  all_goals first | rfl | (exfalso; omega)

lemma bp_dotdelay (d j : Nat) (h1 : d + 1 ≤ j) (h2 : j ≤ 2 * d + 1) :
    bugPhase d j = ⟨.DOTDELAY, ((j - (d + 1) : Nat) : Int), false, false, false⟩ := by
  unfold bugPhase
  repeat' split
  all_goals first | rfl | (exfalso; omega)

lemma bp_dotheld (d : Nat) :
    bugPhase d (2 * d + 2) = ⟨.DOTHELD, 0, false, false, false⟩ := by
  unfold bugPhase
  repeat' split
  all_goals first | rfl | (exfalso; omega)

lemma bp_predot (d : Nat) :
    bugPhase d (2 * d + 3) = ⟨.PREDOT, 0, false, false, false⟩ := by
  unfold bugPhase
  repeat' split
  all_goals first | rfl | (exfalso; omega)

lemma bp_wrap (d j : Nat) (h1 : 2 * d + 4 ≤ j) :
    bugPhase d j = ⟨.SENDDOT, 0, false, false, false⟩ := by
  unfold bugPhase
  repeat' split
  all_goals first | rfl | (exfalso; omega)

lemma bp_ne_exitloop (d j : Nat) : (bugPhase d j).key_state ≠ .EXITLOOP := by
  unfold bugPhase
  repeat' split
  all_goals exact nofun

lemma bp_out_iff (d j : Nat) :
    ((bugPhase d j).keyer_out = true ↔
      (bugPhase d j).key_state = .SENDDOT ∧ (bugPhase d j).kdelay ≠ 0) := by
  unfold bugPhase
  repeat' split
  all_goals simp_all

lemma bugPhase_step (c : Config) (d : Nat)
    (hm : c.cw_keyer_mode = 0) (hdot : c.dot_delay = (d : Int)) (hd : 1 ≤ d)
    (j : Nat) (hj : j < bugPeriod d) :
    keyer_step c dotOnly (bugPhase d j) = bugPhase d (j + 1) := by
  unfold bugPeriod at hj
  have hm1 : ¬(c.cw_keyer_mode = 1) := by rw [hm]; decide
  by_cases h0 : j = 0
  · have hl : bugPhase d j = ⟨.SENDDOT, 0, false, false, false⟩ := by
      rw [h0]; exact bp_zero d
    have hr : bugPhase d (j + 1) = ⟨.SENDDOT, ((1 : Nat) : Int), false, false, true⟩ := by
      rw [show j + 1 = 1 from by omega]; exact bp_senddot d 1 le_rfl hd
    rw [hl, hr, keyer_step_SENDDOT, hdot]
    rw [if_neg (show ¬((0 : Int) = ((d : Nat) : Int)) from by omega)]
    simp [dotOnly, hm1, Keyer.mk.injEq]
  by_cases hA : j < d
  · have hl : bugPhase d j = ⟨.SENDDOT, (j : Int), false, false, true⟩ :=
      bp_senddot d j (by omega) (by omega)
    have hr : bugPhase d (j + 1) = ⟨.SENDDOT, ((j + 1 : Nat) : Int), false, false, true⟩ :=
      bp_senddot d (j + 1) (by omega) (by omega)
    rw [hl, hr, keyer_step_SENDDOT, hdot]
    rw [if_neg (show ¬(((j : Nat) : Int) = ((d : Nat) : Int)) from by omega)]
    simp [dotOnly, hm1, Keyer.mk.injEq]
  by_cases hB : j = d
  · have hl : bugPhase d j = ⟨.SENDDOT, ((d : Nat) : Int), false, false, true⟩ := by
      rw [hB]; exact bp_senddot d d hd le_rfl
    have hr : bugPhase d (j + 1) =
        ⟨.DOTDELAY, ((d + 1 - (d + 1) : Nat) : Int), false, false, false⟩ := by
      rw [show j + 1 = d + 1 from by omega]; exact bp_dotdelay d (d + 1) le_rfl (by omega)
    rw [hl, hr, keyer_step_SENDDOT, hdot]
    rw [if_pos (rfl : ((d : Nat) : Int) = ((d : Nat) : Int))]
    simp [dotOnly, hm1, Keyer.mk.injEq]
  by_cases hC : j ≤ 2 * d
  · have hl : bugPhase d j =
        ⟨.DOTDELAY, ((j - (d + 1) : Nat) : Int), false, false, false⟩ :=
      bp_dotdelay d j (by omega) (by omega)
    have hr : bugPhase d (j + 1) =
        ⟨.DOTDELAY, ((j + 1 - (d + 1) : Nat) : Int), false, false, false⟩ :=
      bp_dotdelay d (j + 1) (by omega) (by omega)
    rw [hl, hr, keyer_step_DOTDELAY, hdot]
    rw [if_neg (show ¬(((j - (d + 1) : Nat) : Int) = ((d : Nat) : Int)) from by omega)]
    simp [dotOnly, Keyer.mk.injEq]
    omega
  by_cases hE : j = 2 * d + 1
  · have hl : bugPhase d j =
        ⟨.DOTDELAY, ((j - (d + 1) : Nat) : Int), false, false, false⟩ :=
      bp_dotdelay d j (by omega) (by omega)
    have hr : bugPhase d (j + 1) = ⟨.DOTHELD, 0, false, false, false⟩ := by
      rw [show j + 1 = 2 * d + 2 from by omega]; exact bp_dotheld d
    rw [hl, hr, keyer_step_DOTDELAY, hdot]
    rw [if_pos (show ((j - (d + 1) : Nat) : Int) = ((d : Nat) : Int) from by omega)]
    simp [dotOnly, Keyer.mk.injEq]
  by_cases hF : j = 2 * d + 2
  · have hl : bugPhase d j = ⟨.DOTHELD, 0, false, false, false⟩ := by
      rw [hF]; exact bp_dotheld d
    have hr : bugPhase d (j + 1) = ⟨.PREDOT, 0, false, false, false⟩ := by
      rw [show j + 1 = 2 * d + 3 from by omega]; exact bp_predot d
    rw [hl, hr, keyer_step_DOTHELD]
    simp [dotOnly]
  · have hG : j = 2 * d + 3 := by omega
    have hl : bugPhase d j = ⟨.PREDOT, 0, false, false, false⟩ := by
      rw [hG]; exact bp_predot d
    have hr : bugPhase d (j + 1) = ⟨.SENDDOT, 0, false, false, false⟩ :=
      bp_wrap d (j + 1) (by omega)
    rw [hl, hr, keyer_step_PREDOT]

end Iambic

namespace Iambic

/-- C5: straight/bug mode (`cw_keyer_mode = 0`).
(i) At a CHECK tick the output follows the dash paddle directly with no
element timing: dash held asserts the output and exits, neither paddle
held de-asserts it and exits; and `keyer_event` posts the wake semaphore
on every paddle event (press or release) in this mode, so the output
tracks the paddle level.
(ii) With only the dot paddle held, the keyer never reaches EXITLOOP and
follows the periodic schedule `bugPhase` — SENDDOT (d+1 ticks), DOTDELAY
(d+1 ticks), DOTHELD, PREDOT — an unending stream of dots with the
output asserted exactly during in-progress SENDDOT ticks, without any
re-press.
(iii) Once the dot paddle is released, the DOTDELAY expiry tick goes
directly to EXITLOOP. -/
theorem straight_mode_behavior (c : Config) (d : Nat)
    (hm : c.cw_keyer_mode = 0) (hdot : c.dot_delay = (d : Int)) (hd : 1 ≤ d) :
    (∀ s : Keyer, s.key_state = .CHECK → ∀ p : Paddles, p.kdash = true →
      (keyer_step c p s).keyer_out = true ∧
      (keyer_step c p s).key_state = .EXITLOOP) ∧
    (∀ s : Keyer, s.key_state = .CHECK → ∀ p : Paddles, p.kdash = false →
      p.kdot = false →
      (keyer_step c p s).keyer_out = false ∧
      (keyer_step c p s).key_state = .EXITLOOP) ∧
    (∀ (l : Bool) (lv : Int) (r : RawPaddles),
      (keyer_event c.cw_keyer_mode l lv r).2 = true) ∧
    (∀ n, (dotRun c n initKeyer).key_state ≠ .EXITLOOP) ∧
    (∀ n, dotRun c (n + 2) initKeyer = bugPhase d (n % bugPeriod d)) ∧
    (∀ n, ((dotRun c (n + 2) initKeyer).keyer_out = true ↔
      (dotRun c (n + 2) initKeyer).key_state = .SENDDOT ∧
      (dotRun c (n + 2) initKeyer).kdelay ≠ 0)) ∧
    (∀ p : Paddles, p.kdot = false → ∀ (m1 m2 o : Bool),
      (keyer_step c p ⟨.DOTDELAY, c.dot_delay, m1, m2, o⟩).key_state = .EXITLOOP) := by
  have hP : 0 < bugPeriod d := by unfold bugPeriod; omega
  have hstep : ∀ j, j < bugPeriod d →
      keyer_step c dotOnly (bugPhase d j) = bugPhase d (j + 1) :=
    fun j hj => bugPhase_step c d hm hdot hd j hj
  have hwrap : bugPhase d (bugPeriod d) = bugPhase d 0 := by
    rw [bp_zero, bp_wrap d (bugPeriod d) (by unfold bugPeriod; omega)]
  have e1 : keyer_step c dotOnly initKeyer = ⟨.PREDOT, 0, false, false, false⟩ := by
    show keyer_step c dotOnly ⟨.CHECK, 0, false, false, false⟩ = _
    rw [keyer_step_CHECK]
    simp [dotOnly, hm]
  have h2 : (keyer_step c dotOnly)^[2] initKeyer = bugPhase d 0 := by
    have hit : (keyer_step c dotOnly)^[2] initKeyer =
        keyer_step c dotOnly (keyer_step c dotOnly initKeyer) := rfl
    rw [hit, e1, keyer_step_PREDOT, bp_zero]
  have hphase : ∀ n, dotRun c (n + 2) initKeyer = bugPhase d (n % bugPeriod d) := by
    intro n
    unfold dotRun
    rw [Function.iterate_add_apply, h2]
    exact iterate_periodic_phase _ _ _ hP hstep hwrap n
  refine ⟨?_, ?_, ?_, ?_, hphase, ?_, ?_⟩
  · intro s hs p hdash
    obtain ⟨ks, kd, m1, m2, o⟩ := s
    cases hs
    rw [keyer_step_CHECK]
    simp [hm, hdash]
  · intro s hs p hdash hdotp
    obtain ⟨ks, kd, m1, m2, o⟩ := s
    cases hs
    rw [keyer_step_CHECK]
    simp [hm, hdash, hdotp]
  · intro l lv r
    simp [keyer_event, hm]
  · intro n
    rcases Nat.lt_or_ge n 2 with hn | hn
    · interval_cases n
      · show initKeyer.key_state ≠ _
        decide
      · show (keyer_step c dotOnly initKeyer).key_state ≠ _
        rw [e1]
        decide
    · obtain ⟨k, rfl⟩ : ∃ k, n = k + 2 := ⟨n - 2, by omega⟩
      rw [hphase k]
      exact bp_ne_exitloop _ _
  · intro n
    rw [hphase n]
    exact bp_out_iff _ _
  · intro p hp m1 m2 o
    rw [keyer_step_DOTDELAY]
    rw [if_pos rfl]
    simp [hp, hm]
    split_ifs <;> rfl

/-- C5 witness. -/
theorem straight_mode_behavior_witness :
    (dotRun ⟨0, 0, 60, 180⟩ 50 initKeyer).key_state ≠ .EXITLOOP :=
  (straight_mode_behavior ⟨0, 0, 60, 180⟩ 60 rfl rfl (by decide)).2.2.2.1 50

end Iambic

namespace Iambic

/-! ### Claim C6: letter spacing window -/

/-- Both paddles released. -/
def noPaddles : Paddles := ⟨false, false⟩

/-- Running the keyer loop with both paddles released on every tick. -/
def idleRun (c : Config) (n : Nat) (s : Keyer) : Keyer :=
  (keyer_step c noPaddles)^[n] s

/-- The keyer configuration `j` ticks after the element-ending
de-assertion of a dot (entry into DOTDELAY with no memories), with both
paddles released, letter spacing enabled and an iambic mode: `d + 1`
DOTDELAY ticks, one DOTHELD tick, `2d + 1` LETTERSPACE ticks, then
EXITLOOP (reached after `3d + 3` ticks in total, absorbing). -/
def lsPhaseDot (d : Nat) (j : Nat) : Keyer :=
  if j ≤ d then ⟨.DOTDELAY, (j : Int), false, false, false⟩
  else if j = d + 1 then ⟨.DOTHELD, 0, false, false, false⟩
  else if j ≤ 3 * d + 2 then
    ⟨.LETTERSPACE, ((j - (d + 2) : Nat) : Int), false, false, false⟩
  else ⟨.EXITLOOP, 0, false, false, false⟩

lemma lsp_dotdelay (d j : Nat) (h : j ≤ d) :
    lsPhaseDot d j = ⟨.DOTDELAY, (j : Int), false, false, false⟩ := by
  unfold lsPhaseDot
  repeat' split
  all_goals first | rfl | (exfalso; omega)

lemma lsp_dotheld (d : Nat) :
    lsPhaseDot d (d + 1) = ⟨.DOTHELD, 0, false, false, false⟩ := by
  unfold lsPhaseDot
  repeat' split
  all_goals first | rfl | (exfalso; omega)

lemma lsp_ls (d j : Nat) (h1 : d + 2 ≤ j) (h2 : j ≤ 3 * d + 2) :
    lsPhaseDot d j =
      ⟨.LETTERSPACE, ((j - (d + 2) : Nat) : Int), false, false, false⟩ := by
  unfold lsPhaseDot
  repeat' split
  all_goals first | rfl | (exfalso; omega)

lemma lsp_exit (d j : Nat) (h : 3 * d + 3 ≤ j) :
    lsPhaseDot d j = ⟨.EXITLOOP, 0, false, false, false⟩ := by
  unfold lsPhaseDot
  repeat' split
  all_goals first | rfl | (exfalso; omega)

lemma lsPhaseDot_step (c : Config) (d : Nat)
    (hm0 : c.cw_keyer_mode ≠ 0) (hsp : c.cw_keyer_spacing ≠ 0)
    (hdot : c.dot_delay = (d : Int)) (j : Nat) :
    keyer_step c noPaddles (lsPhaseDot d j) = lsPhaseDot d (j + 1) := by
  by_cases hA : j < d
  · rw [lsp_dotdelay d j (by omega), lsp_dotdelay d (j + 1) (by omega),
      keyer_step_DOTDELAY, hdot]
    rw [if_neg (show ¬(((j : Nat) : Int) = ((d : Nat) : Int)) from by omega)]
    simp [noPaddles, Keyer.mk.injEq]
  by_cases hB : j = d
  · rw [lsp_dotdelay d j (by omega)]
    have hr : lsPhaseDot d (j + 1) = ⟨.DOTHELD, 0, false, false, false⟩ := by
      rw [show j + 1 = d + 1 from by omega]; exact lsp_dotheld d
    rw [hr, keyer_step_DOTDELAY, hdot]
    rw [if_pos (show ((j : Nat) : Int) = ((d : Nat) : Int) from by omega)]
    simp [noPaddles, hm0, Keyer.mk.injEq]
  by_cases hC : j = d + 1
  · have hl : lsPhaseDot d j = ⟨.DOTHELD, 0, false, false, false⟩ := by
      rw [hC]; exact lsp_dotheld d
    have hr : lsPhaseDot d (j + 1) =
        ⟨.LETTERSPACE, ((j + 1 - (d + 2) : Nat) : Int), false, false, false⟩ :=
      lsp_ls d (j + 1) (by omega) (by omega)
    rw [hl, hr, keyer_step_DOTHELD]
    simp [noPaddles, hsp, Keyer.mk.injEq]
    omega
  by_cases hD : j ≤ 3 * d + 1
  · have hl : lsPhaseDot d j =
        ⟨.LETTERSPACE, ((j - (d + 2) : Nat) : Int), false, false, false⟩ :=
      lsp_ls d j (by omega) (by omega)
    have hr : lsPhaseDot d (j + 1) =
        ⟨.LETTERSPACE, ((j + 1 - (d + 2) : Nat) : Int), false, false, false⟩ :=
      lsp_ls d (j + 1) (by omega) (by omega)
    rw [hl, hr, keyer_step_LETTERSPACE, hdot]
    rw [if_neg (show ¬(((j - (d + 2) : Nat) : Int) = 2 * ((d : Nat) : Int)) from by omega)]
    simp [noPaddles, Keyer.mk.injEq]
    omega
  by_cases hE : j = 3 * d + 2
  · have hl : lsPhaseDot d j =
        ⟨.LETTERSPACE, ((j - (d + 2) : Nat) : Int), false, false, false⟩ :=
      lsp_ls d j (by omega) (by omega)
    have hr : lsPhaseDot d (j + 1) = ⟨.EXITLOOP, 0, false, false, false⟩ :=
      lsp_exit d (j + 1) (by omega)
    rw [hl, hr, keyer_step_LETTERSPACE, hdot]
    rw [if_pos (show ((j - (d + 2) : Nat) : Int) = 2 * ((d : Nat) : Int) from by omega)]
    simp [noPaddles, Keyer.mk.injEq]
  · rw [lsp_exit d j (by omega), lsp_exit d (j + 1) (by omega),
      keyer_step_EXITLOOP]

end Iambic

namespace Iambic

/-- The same release window after a dash: `d + 1` DASHDELAY ticks, one
DASHHELD tick, `2d + 1` LETTERSPACE ticks, then EXITLOOP (absorbing). -/
def lsPhaseDash (d : Nat) (j : Nat) : Keyer :=
  if j ≤ d then ⟨.DASHDELAY, (j : Int), false, false, false⟩
  else if j = d + 1 then ⟨.DASHHELD, 0, false, false, false⟩
  else if j ≤ 3 * d + 2 then
    ⟨.LETTERSPACE, ((j - (d + 2) : Nat) : Int), false, false, false⟩
  else ⟨.EXITLOOP, 0, false, false, false⟩

lemma lsq_dashdelay (d j : Nat) (h : j ≤ d) :
    lsPhaseDash d j = ⟨.DASHDELAY, (j : Int), false, false, false⟩ := by
  unfold lsPhaseDash
  repeat' split
  all_goals first | rfl | (exfalso; omega)

lemma lsq_dashheld (d : Nat) :
    lsPhaseDash d (d + 1) = ⟨.DASHHELD, 0, false, false, false⟩ := by
  unfold lsPhaseDash
  repeat' split
  all_goals first | rfl | (exfalso; omega)

lemma lsq_ls (d j : Nat) (h1 : d + 2 ≤ j) (h2 : j ≤ 3 * d + 2) :
    lsPhaseDash d j =
      ⟨.LETTERSPACE, ((j - (d + 2) : Nat) : Int), false, false, false⟩ := by
  unfold lsPhaseDash
  repeat' split
  all_goals first | rfl | (exfalso; omega)

lemma lsq_exit (d j : Nat) (h : 3 * d + 3 ≤ j) :
    lsPhaseDash d j = ⟨.EXITLOOP, 0, false, false, false⟩ := by
  unfold lsPhaseDash
  repeat' split
  all_goals first | rfl | (exfalso; omega)

lemma lsPhaseDash_step (c : Config) (d : Nat)
    (hsp : c.cw_keyer_spacing ≠ 0)
    (hdot : c.dot_delay = (d : Int)) (j : Nat) :
    keyer_step c noPaddles (lsPhaseDash d j) = lsPhaseDash d (j + 1) := by
  by_cases hA : j < d
  · rw [lsq_dashdelay d j (by omega), lsq_dashdelay d (j + 1) (by omega),
      keyer_step_DASHDELAY, hdot]
    rw [if_neg (show ¬(((j : Nat) : Int) = ((d : Nat) : Int)) from by omega)]
    simp [noPaddles, Keyer.mk.injEq]
  by_cases hB : j = d
  · rw [lsq_dashdelay d j (by omega)]
    have hr : lsPhaseDash d (j + 1) = ⟨.DASHHELD, 0, false, false, false⟩ := by
      rw [show j + 1 = d + 1 from by omega]; exact lsq_dashheld d
    rw [hr, keyer_step_DASHDELAY, hdot]
    rw [if_pos (show ((j : Nat) : Int) = ((d : Nat) : Int) from by omega)]
    simp [noPaddles, Keyer.mk.injEq]
  by_cases hC : j = d + 1
  · have hl : lsPhaseDash d j = ⟨.DASHHELD, 0, false, false, false⟩ := by
      rw [hC]; exact lsq_dashheld d
    have hr : lsPhaseDash d (j + 1) =
        ⟨.LETTERSPACE, ((j + 1 - (d + 2) : Nat) : Int), false, false, false⟩ :=
      lsq_ls d (j + 1) (by omega) (by omega)
    rw [hl, hr, keyer_step_DASHHELD]
    simp [noPaddles, hsp, Keyer.mk.injEq]
    omega
  by_cases hD : j ≤ 3 * d + 1
  · have hl : lsPhaseDash d j =
        ⟨.LETTERSPACE, ((j - (d + 2) : Nat) : Int), false, false, false⟩ :=
      lsq_ls d j (by omega) (by omega)
    have hr : lsPhaseDash d (j + 1) =
        ⟨.LETTERSPACE, ((j + 1 - (d + 2) : Nat) : Int), false, false, false⟩ :=
      lsq_ls d (j + 1) (by omega) (by omega)
    rw [hl, hr, keyer_step_LETTERSPACE, hdot]
    rw [if_neg (show ¬(((j - (d + 2) : Nat) : Int) = 2 * ((d : Nat) : Int)) from by omega)]
    simp [noPaddles, Keyer.mk.injEq]
    omega
  by_cases hE : j = 3 * d + 2
  · have hl : lsPhaseDash d j =
        ⟨.LETTERSPACE, ((j - (d + 2) : Nat) : Int), false, false, false⟩ :=
      lsq_ls d j (by omega) (by omega)
    have hr : lsPhaseDash d (j + 1) = ⟨.EXITLOOP, 0, false, false, false⟩ :=
      lsq_exit d (j + 1) (by omega)
    rw [hl, hr, keyer_step_LETTERSPACE, hdot]
    rw [if_pos (show ((j - (d + 2) : Nat) : Int) = 2 * ((d : Nat) : Int) from by omega)]
    simp [noPaddles, Keyer.mk.injEq]
  · rw [lsq_exit d j (by omega), lsq_exit d (j + 1) (by omega),
      keyer_step_EXITLOOP]

end Iambic

namespace Iambic

lemma lsPhaseDot_ne (d j : Nat) (h : j < 3 * d + 3) :
    (lsPhaseDot d j).key_state ≠ .EXITLOOP := by
  unfold lsPhaseDot
  split_ifs <;> first | (exfalso; omega) | exact nofun

lemma lsPhaseDot_out (d j : Nat) : (lsPhaseDot d j).keyer_out = false := by
  unfold lsPhaseDot
  split_ifs <;> rfl

lemma lsPhaseDash_ne (d j : Nat) (h : j < 3 * d + 3) :
    (lsPhaseDash d j).key_state ≠ .EXITLOOP := by
  unfold lsPhaseDash
  split_ifs <;> first | (exfalso; omega) | exact nofun

lemma lsPhaseDash_out (d j : Nat) : (lsPhaseDash d j).keyer_out = false := by
  unfold lsPhaseDash
  split_ifs <;> rfl

set_option maxRecDepth 4000 in
/-- C6 (counterexample): with letter spacing enabled, dot delay 60 and
both paddles released from the element-ending de-assertion (DOTDELAY
entry), the machine has NOT reached EXITLOOP after 3 × dot_period = 180
ticks — it only reaches EXITLOOP after 3 × dot_period + 3 = 183 ticks
(the two expiry-evaluation ticks and the DOTHELD tick are extra). -/
theorem letter_space_exact_tick_counterexample :
    (idleRun ⟨2, 1, 60, 180⟩ 180
        ⟨.DOTDELAY, 0, false, false, false⟩).key_state ≠ .EXITLOOP ∧
    (idleRun ⟨2, 1, 60, 180⟩ 183
        ⟨.DOTDELAY, 0, false, false, false⟩).key_state = .EXITLOOP := by
  decide

/-- C6 (amended): with letter spacing enabled, an iambic mode and both
paddles released throughout, starting from the element-ending
de-assertion (DOTDELAY or DASHDELAY entry with no memories), the keyer
follows `lsPhaseDot`/`lsPhaseDash`: `dot_delay + 1` delay-state ticks,
one DOTHELD/DASHHELD tick and `2 × dot_delay + 1` LETTERSPACE ticks —
the output stays de-asserted throughout and EXITLOOP is reached exactly
at tick `3 × dot_delay + 3`, not `3 × dot_delay`. -/
theorem letter_space_window (c : Config) (d : Nat)
    (hm0 : c.cw_keyer_mode ≠ 0) (hsp : c.cw_keyer_spacing ≠ 0)
    (hdot : c.dot_delay = (d : Int)) :
    (∀ n, idleRun c n ⟨.DOTDELAY, 0, false, false, false⟩ = lsPhaseDot d n) ∧
    (∀ n, n < 3 * d + 3 →
      (idleRun c n ⟨.DOTDELAY, 0, false, false, false⟩).key_state ≠ .EXITLOOP) ∧
    ((idleRun c (3 * d + 3)
        ⟨.DOTDELAY, 0, false, false, false⟩).key_state = .EXITLOOP) ∧
    (∀ n, (idleRun c n ⟨.DOTDELAY, 0, false, false, false⟩).keyer_out = false) ∧
    (∀ n, idleRun c n ⟨.DASHDELAY, 0, false, false, false⟩ = lsPhaseDash d n) ∧
    (∀ n, n < 3 * d + 3 →
      (idleRun c n ⟨.DASHDELAY, 0, false, false, false⟩).key_state ≠ .EXITLOOP) ∧
    ((idleRun c (3 * d + 3)
        ⟨.DASHDELAY, 0, false, false, false⟩).key_state = .EXITLOOP) ∧
    (∀ n, (idleRun c n ⟨.DASHDELAY, 0, false, false, false⟩).keyer_out = false) := by
  have hg0 : lsPhaseDot d 0 = ⟨.DOTDELAY, 0, false, false, false⟩ := by
    rw [lsp_dotdelay d 0 (by omega)]
    simp
  have hq0 : lsPhaseDash d 0 = ⟨.DASHDELAY, 0, false, false, false⟩ := by
    rw [lsq_dashdelay d 0 (by omega)]
    simp
  have hphase : ∀ n,
      idleRun c n ⟨.DOTDELAY, 0, false, false, false⟩ = lsPhaseDot d n := by
    intro n
    unfold idleRun
    rw [← hg0]
    have h := iterate_eq_of_phase (keyer_step c noPaddles) (lsPhaseDot d) n 0
      (fun j _ _ => lsPhaseDot_step c d hm0 hsp hdot j)
    simpa using h
  have hphaseq : ∀ n,
      idleRun c n ⟨.DASHDELAY, 0, false, false, false⟩ = lsPhaseDash d n := by
    intro n
    unfold idleRun
    rw [← hq0]
    have h := iterate_eq_of_phase (keyer_step c noPaddles) (lsPhaseDash d) n 0
      (fun j _ _ => lsPhaseDash_step c d hsp hdot j)
    simpa using h
  refine ⟨hphase, ?_, ?_, ?_, hphaseq, ?_, ?_, ?_⟩
  · intro n hn
    rw [hphase n]
    exact lsPhaseDot_ne d n hn
  · rw [hphase (3 * d + 3), lsp_exit d (3 * d + 3) le_rfl]
  · intro n
    rw [hphase n]
    exact lsPhaseDot_out d n
  · intro n hn
    rw [hphaseq n]
    exact lsPhaseDash_ne d n hn
  · rw [hphaseq (3 * d + 3), lsq_exit d (3 * d + 3) le_rfl]
  · intro n
    rw [hphaseq n]
    exact lsPhaseDash_out d n

/-- C6 witness. -/
theorem letter_space_window_witness :
    (idleRun ⟨2, 1, 60, 180⟩ 183
        ⟨.DOTDELAY, 0, false, false, false⟩).key_state = .EXITLOOP :=
  (letter_space_window ⟨2, 1, 60, 180⟩ 60 (by decide) (by decide) rfl).2.2.1

end Iambic

namespace Iambic

/-! ### Claim C8: command-line handling in `main` -/

/-- C-locale `isspace`, as used by `atoi`. -/
def isSpaceC (ch : Char) : Bool :=
  ch = ' ' || ch = '\t' || ch = '\n' || ch = '\r' || ch = '\x0b' || ch = '\x0c'

/-- Value of the leading decimal-digit prefix of a character list. -/
def digitsVal (cs : List Char) : Nat :=
  (cs.takeWhile (fun ch => ch.isDigit)).foldl
    (fun a ch => a * 10 + (ch.toNat - 48)) 0

/-- C `atoi`: skip whitespace, optional sign, then the longest digit
prefix; anything else contributes nothing (so `atoi("abc") = 0`). -/
def cAtoi (s : String) : Int :=
  match s.toList.dropWhile isSpaceC with
  | '-' :: t => -(digitsVal t : Int)
  | '+' :: t => (digitsVal t : Int)
  | t => (digitsVal t : Int)

/-- The five configuration globals set by `main`'s option loop. -/
structure CLIConfig where
  cw_keyer_spacing : Int
  cw_keyer_sidetone_frequency : Int
  cw_keyer_mode : Int
  cw_keyer_speed : Int
  cw_keyer_weight : Int
deriving DecidableEq, Repr

/-- The initial values of those globals (iambic.c lines 119-124). -/
def defaultCLIConfig : CLIConfig := ⟨0, 800, 1, 20, 50⟩

/-- Outcome of `main`'s option loop (iambic.c lines 350-375):
`ok` = fell through to the rest of `main` (with unconsumed arguments),
`usageExit` = printed usage and called `exit(1)`,
`nullArgUB` = a recognized option was the last argument, so
`atoi(argv[argc])` dereferences NULL (undefined behaviour). -/
inductive ParseOutcome where
  | ok (cfg : CLIConfig) (rest : List String)
  | usageExit
  | nullArgUB
deriving DecidableEq, Repr

/-- Which global a recognized option letter updates. -/
def setOption (cfg : CLIConfig) (opt : Char) (v : Int) : CLIConfig :=
  if opt = 'c' then { cfg with cw_keyer_spacing := v }
  else if opt = 'f' then { cfg with cw_keyer_sidetone_frequency := v }
  else if opt = 'm' then { cfg with cw_keyer_mode := v }
  else if opt = 's' then { cfg with cw_keyer_speed := v }
  else { cfg with cw_keyer_weight := v }

/-- The option letters of `main`'s `switch`. -/
def recognizedOpt (opt : Char) : Bool :=
  opt = 'c' || opt = 'f' || opt = 'm' || opt = 's' || opt = 'w'

/-- `main`'s option loop: arguments starting with `-` are dispatched on
their second character (`'\x00'` for a bare `-`, as in C); recognized
letters consume the next argument through `atoi` with no validation;
any other letter prints usage and exits with status 1; the first
non-dash argument stops the loop. -/
def parse_args : List String → CLIConfig → ParseOutcome
  | [], cfg => .ok cfg []
  | a :: rest, cfg =>
    match a.toList with
    | '-' :: cs =>
      if recognizedOpt (cs.headD '\x00') then
        match rest with
        | [] => .nullArgUB
        | v :: rest2 => parse_args rest2 (setOption cfg (cs.headD '\x00') (cAtoi v))
      else .usageExit
    | _ => .ok cfg (a :: rest)

/-- C8 (counterexample): a malformed value for a recognized option is
NOT rejected: `-s abc` parses to speed 0 (and `-s 100`, outside the
documented 1-60 domain, to speed 100) with no usage message and no
non-zero exit — only an unrecognized option letter triggers usage. -/
theorem invalid_option_value_not_rejected :
    parse_args ["-s", "abc"] defaultCLIConfig =
      .ok { defaultCLIConfig with cw_keyer_speed := 0 } [] ∧
    parse_args ["-s", "100"] defaultCLIConfig =
      .ok { defaultCLIConfig with cw_keyer_speed := 100 } [] ∧
    parse_args ["-s", "abc"] defaultCLIConfig ≠ .usageExit := by
  refine ⟨by decide, by decide, by decide⟩

/-- C8 (amended): `main` performs no format or range validation on
option values: each recognized option (-c, -f, -m, -s, -w) consumes the next
argument through `atoi` (malformed strings become 0, out-of-range values
are stored as-is) and parsing continues; usage plus `exit(1)` happens
exactly for a `-` argument whose option letter is not one of c, f, m,
s, w. -/
theorem cli_parse_no_value_validation (v : String) (rest : List String)
    (cfg : CLIConfig) :
    parse_args ("-c" :: v :: rest) cfg =
      parse_args rest { cfg with cw_keyer_spacing := cAtoi v } ∧
    parse_args ("-f" :: v :: rest) cfg =
      parse_args rest { cfg with cw_keyer_sidetone_frequency := cAtoi v } ∧
    parse_args ("-m" :: v :: rest) cfg =
      parse_args rest { cfg with cw_keyer_mode := cAtoi v } ∧
    parse_args ("-s" :: v :: rest) cfg =
      parse_args rest { cfg with cw_keyer_speed := cAtoi v } ∧
    parse_args ("-w" :: v :: rest) cfg =
      parse_args rest { cfg with cw_keyer_weight := cAtoi v } ∧
    (∀ ch : Char, recognizedOpt ch = false →
      parse_args (String.mk ['-', ch] :: rest) cfg = .usageExit) := by
  refine ⟨rfl, rfl, rfl, rfl, rfl, ?_⟩
  intro ch hch
  rcases rest with _ | ⟨v2, rest2⟩
  · show (if recognizedOpt ch = true then ParseOutcome.nullArgUB
      else ParseOutcome.usageExit) = ParseOutcome.usageExit
    rw [if_neg (by simp [hch])]
  · show (if recognizedOpt ch = true then
        parse_args rest2 (setOption cfg ch (cAtoi v2))
      else ParseOutcome.usageExit) = ParseOutcome.usageExit
    rw [if_neg (by simp [hch])]

/-- C8 witness. -/
theorem cli_parse_no_value_validation_witness :
    parse_args ["-x"] defaultCLIConfig = ParseOutcome.usageExit :=
  (cli_parse_no_value_validation "abc" [] defaultCLIConfig).2.2.2.2.2 'x'
    (by decide)

/-! ### Claim C9: process exit and the key line -/

/-- The process-level state relevant to exiting: the `running` flag and
the level last written to `KEYER_OUT_GPIO`. -/
structure ProcState where
  running : Bool
  keyer_out_line : Bool
deriving DecidableEq, Repr

/-- `sig_handler` (iambic.c lines 342-345): sets `running = 0` and calls
`exit(0)`.  It performs no GPIO write, so the key output line keeps
whatever level it had when the signal arrived. -/
def sig_handler (s : ProcState) : ProcState := { s with running := false }

/-- The GPIO setup in `main` (iambic.c lines 398-399): after configuring
`KEYER_OUT_GPIO` as an output, `main` writes the line HIGH. -/
def main_gpio_init (s : ProcState) : ProcState := { s with keyer_out_line := true }

/-- C9 (code bug): the signal-triggered exit path does not de-assert the
key line — `sig_handler` evaluated with the line asserted leaves it
asserted (and `main` even starts by driving the line high), contrary to
the fail-safe requirement that every exit path leave the key up. -/
theorem sig_handler_leaves_line_asserted :
    (sig_handler ⟨true, true⟩).keyer_out_line = true ∧
    (main_gpio_init ⟨false, false⟩).keyer_out_line = true :=
  ⟨rfl, rfl⟩

end Iambic
